import Mathlib

/-!
Verification of the borkstudio Telegram bot and copy-page server
(src/src/index.js). The definitions below are a shallow embedding of the
functions of that file: the input classifier regexes, the token generator,
the conversation-state and request stores, the text/action handlers, the
HTTP route for /c/:token, the HTML page builder, and the sponsor-link
normalizer. Randomness is modelled by an explicit index source, the
database by explicit finite maps, and each handler by a pure state
transformer returning the new store together with the replies sent.
-/

/-- Character class of the JS regex \d (ASCII decimal digits). -/
def isDigitChar (c : Char) : Bool := decide (48 ≤ c.toNat ∧ c.toNat ≤ 57)

/-- The test /^\d+$/.test(text): the whole string is one or more digits. -/
def isDigits (s : String) : Bool := !s.data.isEmpty && s.data.all isDigitChar

/-- The exact decimal value denoted by a digit string, as an unbounded
natural number: the mathematical value, before any floating-point rounding. -/
def parseDigits (s : String) : Nat := s.data.foldl (fun a c => a * 10 + (c.toNat - 48)) 0

/-- Halvings needed to bring n below 2^53: the exponent of the unit in the
last place of the IEEE-754 binary64 value nearest to n. The first argument
is fuel, decremented structurally; fuel n is ample since each step halves. -/
def ulpExp : Nat → Nat → Nat
  | 0, _ => 0
  | fuel + 1, n => if n < 2 ^ 53 then 0 else ulpExp fuel (n / 2) + 1

/-- Rounding of a natural number to the nearest IEEE-754 binary64 value
(53 significant bits, ties to even): the identity below 2^53, where every
integer is exactly representable. JS number semantics beyond this model
(overflow to Infinity near 1.8e308, exponential String form at and above
1e21, shortest-round-trip printing between 2^53 and 1e21) lie outside the
inputs any theorem below evaluates. -/
def roundToDouble (n : Nat) : Nat :=
  if n < 2 ^ 53 then n
  else
    let e := ulpExp n n
    let q := n / 2 ^ e
    let r := n % 2 ^ e
    let half := 2 ^ (e - 1)
    if r < half then q * 2 ^ e
    else if half < r then (q + 1) * 2 ^ e
    else if q % 2 = 0 then q * 2 ^ e else (q + 1) * 2 ^ e

/-- parseInt(text, 10) on an all-digit string: the exact decimal value
rounded to the nearest binary64 double, per the StringToNumber semantics. -/
def jsParseIntDigits (s : String) : Nat := roundToDouble (parseDigits s)

/-- JS whitespace recognized by String.prototype.trim. -/
def isJsSpace (c : Char) : Bool :=
  decide (c.toNat = 32 ∨ (9 ≤ c.toNat ∧ c.toNat ≤ 13) ∨ c.toNat = 160 ∨ c.toNat = 65279)

/-- String.prototype.trim: strip whitespace from both ends. -/
def jsTrim (s : String) : String :=
  ⟨((s.data.dropWhile isJsSpace).reverse.dropWhile isJsSpace).reverse⟩

/-- ASCII lower-casing, as used by the /i regex flag on the scheme letters. -/
def lowerChar (c : Char) : Char :=
  if 65 ≤ c.toNat ∧ c.toNat ≤ 90 then Char.ofNat (c.toNat + 32) else c

/-- Character class of the JS regex \w: ASCII letters, digits, underscore. -/
def isWordChar (c : Char) : Bool :=
  decide ((65 ≤ c.toNat ∧ c.toNat ≤ 90) ∨ (97 ≤ c.toNat ∧ c.toNat ≤ 122) ∨
    (48 ≤ c.toNat ∧ c.toNat ≤ 57) ∨ c = '_')

/-- Host character class of the URL regex: [\w.-]. -/
def isHostChar (c : Char) : Bool := isWordChar c || c = '.' || c = '-'

/-- The extra path characters of the URL regex class, besides \w. -/
def pathExtraChars : List Char :=
  ['-', '.', '_', '~', ':', '/', '?', '#', '[', ']', '@', '!', '$', '&',
   Char.ofNat 39, '(', ')', '*', '+', ',', ';', '=']

/-- Path character class of the URL regex. -/
def isPathChar (c : Char) : Bool := isWordChar c || pathExtraChars.contains c

/-- Split a character list at the first slash, if any; the host class has no
slash, so this is where the regex host part must end. -/
def splitAtFirstSlash : List Char → List Char × Option (List Char)
  | [] => ([], none)
  | c :: cs =>
    if c = '/' then ([], some cs)
    else
      let p := splitAtFirstSlash cs
      (c :: p.1, p.2)

/-- Match of [\w.-]+(?:\/[path chars]+)?$ against the text after the scheme. -/
def matchHostRest (rest : List Char) : Bool :=
  match splitAtFirstSlash rest with
  | (h, none) => !h.isEmpty && h.all isHostChar
  | (h, some p) => !h.isEmpty && h.all isHostChar && !p.isEmpty && p.all isPathChar

/-- The test of the URL regex
 /^(https?:\/\/)[\w.-]+(?:\/[\w\-._~:\/?#[\]@!$&()*+,;=.]+)?$/i
(the class also holds the apostrophe): scheme http or https case-insensitively,
then a nonempty host of [\w.-], then optionally a slash and a nonempty run of
path characters. -/
def isUrlRe (s : String) : Bool :=
  let low := s.data.map lowerChar
  if low.take 7 = "http://".data then matchHostRest (s.data.drop 7)
  else if low.take 8 = "https://".data then matchHostRest (s.data.drop 8)
  else false

/-- Result of classifying the trimmed owner text, per the handler branches. -/
inductive Classification where
  | stars (n : Nat)
  | nft
  | neither
  deriving DecidableEq

/-- The branch taken by the text handler: digits first, then the URL rule,
else neither; the stars payload carries the exact decimal value the digit
string denotes. -/
def classify (t : String) : Classification :=
  if isDigits t then Classification.stars (parseDigits t)
  else if isUrlRe t then Classification.nft
  else Classification.neither

/-- The 62-character alphabet of generateRandomToken. -/
def alphabet : String := "ABCDEFGHIJKLMNOPQRSTUVWXYZabcdefghijklmnopqrstuvwxyz0123456789"

/-- JS String.prototype.charAt: one-character substring, empty out of range. -/
def jsCharAt (s : String) (i : Nat) : String := ⟨(s.data.drop i).take 1⟩

/-- generateRandomToken(len): appends alphabet.charAt(r i) for each loop
iteration i, where r models the per-iteration Math.floor(Math.random() * 62). -/
def generateRandomToken (len : Nat) (r : Nat → Nat) : String :=
  (List.range len).foldl (fun out i => out ++ jsCharAt alphabet (r i)) ""

/-- A row of the requests table. -/
structure RequestRow where
  user_id : Int
  request_type : String
  request_value : String
  generated_link : String
  deriving DecidableEq

/-- The persistent stores touched by the flow: user_states and requests,
each keyed as in the schema. -/
structure Db where
  userStates : Int → Option String
  requests : String → Option RequestRow

/-- The hardcoded BOT_OWNER_ID. -/
def ownerId : Int := 6910097562

/-- getUserState: the state column for the user, none when no row. -/
def getUserState (db : Db) (uid : Int) : Option String := db.userStates uid

/-- setUserState: upsert of the single state row of the user. -/
def setUserState (db : Db) (uid : Int) (st : String) : Db :=
  Db.mk (fun u => if u = uid then some st else db.userStates u) db.requests

/-- clearUserState: delete the state row of the user. -/
def clearUserState (db : Db) (uid : Int) : Db :=
  Db.mk (fun u => if u = uid then none else db.userStates u) db.requests

/-- saveRequest: insert-or-update of the request row keyed by the token. -/
def saveRequest (db : Db) (token : String) (uid : Int) (ty v lnk : String) : Db :=
  Db.mk db.userStates
    (fun k => if k = token then some (RequestRow.mk uid ty v lnk) else db.requests k)

/-- The get_link action handler: non-owner gets the unavailable callback
answer; the owner gets the state set to awaiting_request plus the prompt. -/
def handleGetLink (db : Db) (uid : Int) : Db × List String :=
  if uid ≠ ownerId then (db, ["Действие недоступно."])
  else (setUserState db uid "awaiting_request",
    ["Отправьте количество звёзд (числом) или ссылку на NFT, которую хотите забрать."])

/-- The text handler: ignore unless the sender is the owner in state
awaiting_request; trim, classify, validate, then generate the token, compose
the link, save the request, clear the state and reply. The parsed value is
the double returned by parseInt; String(value) is modelled as decimal
printing, which agrees with JS on every value the theorems below reach
(below 2^53, and the exactly-printed 2^53 itself). -/
def handleText (baseUrl : String) (db : Db) (uid : Int) (msg : String) (r : Nat → Nat) :
    Db × List String :=
  let state := getUserState db uid
  if uid ≠ ownerId ∨ state ≠ some "awaiting_request" then (db, [])
  else
    let text := jsTrim msg
    let isNumber := isDigits text
    let isUrl := isUrlRe text
    if !isNumber && !isUrl then
      (db, ["Пожалуйста, отправьте положительное число (звёзды) или корректную ссылку (NFT)."])
    else
      let type := if isNumber then "stars" else "nft"
      let value := jsParseIntDigits text
      if isNumber && decide (value ≤ 0) then
        (db, ["Количество звёзд должно быть больше 0. Попробуйте снова."])
      else
        let token := generateRandomToken 14 r
        let link := baseUrl ++ "/c/" ++ token
        let valueStr := if isNumber then toString value else text
        (clearUserState (saveRequest db token uid type valueStr link) uid,
          ["Готово! Ваша уникальная ссылка: " ++ link])

/-- The displayValue computation of buildCopyHtml: the stored value, with the
unit suffix when the type is stars, empty when there is no row. -/
def rowDisplayValue (row : Option RequestRow) : String :=
  match row with
  | some r => if r.request_type = "stars" then r.request_value ++ " звёзд" else r.request_value
  | none => ""

/-- Two lowercase hex digits of a byte, as printed by JSON.stringify. -/
def hexDigitChar (n : Nat) : Char :=
  if n < 10 then Char.ofNat (48 + n) else Char.ofNat (87 + n)

/-- Escaping of one character inside a JSON string literal. -/
def jsonEscapeChar (c : Char) : String :=
  if c = '"' then "\\\""
  else if c = '\\' then "\\\\"
  else if c.toNat = 10 then "\\n"
  else if c.toNat = 13 then "\\r"
  else if c.toNat = 9 then "\\t"
  else if c.toNat = 8 then "\\b"
  else if c.toNat = 12 then "\\f"
  else if c.toNat < 32 then "\\u00" ++ ⟨[hexDigitChar (c.toNat / 16), hexDigitChar (c.toNat % 16)]⟩
  else ⟨[c]⟩

/-- JSON.stringify on a string value. -/
def jsonStringify (s : String) : String :=
  "\"" ++ String.join (s.data.map jsonEscapeChar) ++ "\""

/-- Template text before the first title interpolation. -/
def htmlA : String := "<!doctype html>\n<html>\n<head>\n  <meta charset=\"utf-8\" />\n  <meta name=\"viewport\" content=\"width=device-width, initial-scale=1\" />\n  <title>"

/-- Template text between the title tag and the title div. -/
def htmlB : String := "</title>\n  <style>\n    :root \x7b --bg: #0b1020; --card: #0f1724; --accent: #00d1ff; --text: #ffffff; \x7d\n    body \x7b margin:0; font-family: Inter, system-ui, -apple-system, \x27Segoe UI\x27, Roboto, \x27Helvetica Neue\x27, Arial; background: linear-gradient(135deg,#071226 0%, #081224 100%); color: var(--text); display:flex; align-items:center; justify-content:center; height:100vh; \x7d\n    .card \x7b background: var(--card); padding:28px; border-radius:14px; box-shadow: 0 10px 30px rgba(2,6,23,0.6); max-width:520px; width:90%; text-align:center; \x7d\n    .title \x7b font-size:22px; font-weight:800; color:var(--accent); margin-bottom:8px; \x7d\n    .desc \x7b font-size:16px; color:#e6f7ff; margin-bottom:18px; \x7d\n    .value \x7b font-size:20px; font-weight:700; color:#fff; background: rgba(255,255,255,0.03); padding:10px 14px; border-radius:8px; margin-bottom:18px; \x7d\n    .btn \x7b display:inline-block; padding:12px 20px; background:var(--accent); color:#022; font-weight:800; border-radius:10px; text-decoration:none; cursor:pointer; \x7d\n    .hint \x7b margin-top:12px; color:#9fbfdc; font-size:13px; \x7d\n  </style>\n</head>\n<body>\n  <div class=\"card\">\n    <div class=\"title\">"

/-- Template text between the title div and the description div. -/
def htmlC : String := "</div>\n    <div class=\"desc\">"

/-- Template text between the description div and the value block. -/
def htmlD : String := "</div>\n    "

/-- Template text between the value block and the stringified URL. -/
def htmlE : String := "\n    <button class=\"btn\" id=\"copyBtn\">Скопировать ссылку</button>\n    <div class=\"hint\" id=\"hint\">Ожидание...</div>\n  </div>\n  <script>\n    const copyBtn = document.getElementById(\x27copyBtn\x27);\n    const hint = document.getElementById(\x27hint\x27);\n    const textToCopy = "

/-- Template text after the stringified URL. -/
def htmlF : String := ";\n\n    async function tryCopy() \x7b\n      try \x7b\n        if (navigator.clipboard && navigator.clipboard.writeText) \x7b\n          await navigator.clipboard.writeText(textToCopy);\n        \x7d else \x7b\n          const t = document.createElement(\x27textarea\x27);\n          t.value = textToCopy; document.body.appendChild(t); t.select(); document.execCommand(\x27copy\x27); t.remove();\n        \x7d\n        hint.textContent = \x27Ссылка скопирована в буфер обмена!\x27;\n      \x7d catch (e) \x7b\n        hint.textContent = \x27Не удалось скопировать автоматически. Нажмите кнопку.\x27;\n      \x7d\n    \x7d\n\n    // Try to copy on load (may be blocked by browser), then rely on button\n    window.addEventListener(\x27load\x27, () => \x7b\n      tryCopy();\n    \x7d);\n\n    copyBtn.addEventListener(\x27click\x27, async () => \x7b\n      await tryCopy();\x0a    \x7d);\n  </script>\n</body>\n</html>"

/-- buildCopyHtml(fullUrl, row, notFound): the rendered page. -/
def buildCopyHtml (fullUrl : String) (row : Option RequestRow) (notFound : Bool) : String :=
  let displayValue := rowDisplayValue row
  let title := if notFound then "Ссылка не найдена" else "Скопировать ссылку"
  let description :=
    if notFound then "Эта ссылка не найдена или истекла."
    else "Нажмите кнопку, чтобы скопировать: " ++ fullUrl
  htmlA ++ title ++ htmlB ++ title ++ htmlC ++ description ++ htmlD ++
    (if displayValue ≠ "" then "<div class=\"value\">" ++ displayValue ++ "</div>" else "") ++
    htmlE ++ jsonStringify fullUrl ++ htmlF

/-- The GET /c/:token route: degraded page when no pool is configured (status
200), 404 not-found page when no row has the token, else the found page. -/
def handleCopyRoute (baseUrl : String) (pool : Option Db) (token : String) : Nat × String :=
  match pool with
  | none => (200, buildCopyHtml (baseUrl ++ "/c/" ++ token) none false)
  | some db =>
    match db.requests token with
    | none => (404, buildCopyHtml (baseUrl ++ "/c/" ++ token) none true)
    | some row => (200, buildCopyHtml (baseUrl ++ "/c/" ++ token) (some row) false)

/-- indexOf(pat, start) on character lists: the least index at or beyond
start where pat occurs, none when absent. -/
def indexOfFrom (s pat : List Char) (start : Nat) : Option Nat :=
  (List.range (s.length + 1)).find? (fun i => decide (start ≤ i) && pat.isPrefixOf (s.drop i))

/-- The marker searched for by normalizeSponsorLinks. -/
def pfxTme : List Char := "https://t.me/".data

/-- The extraction loop of normalizeSponsorLinks. Each iteration finds the
next marker occurrence at or beyond the search position, cuts at the next
comma or the next marker occurrence (or the end), trims the slice and pushes
it when nonempty, then continues from the cut. The search position strictly
grows each iteration, so length + 1 steps of fuel always suffice. -/
def sponsorLoopF : Nat → List Char → Nat → List String → List String
  | 0, _, _, acc => acc
  | fuel + 1, raw, start, acc =>
    match indexOfFrom raw pfxTme start with
    | none => acc
    | some idx =>
      let end1 := indexOfFrom raw [','] idx
      let nextP := indexOfFrom raw pfxTme (idx + pfxTme.length)
      let end2 : Nat :=
        match nextP, end1 with
        | some np, none => np
        | some np, some e => if np < e then np else e
        | none, some e => e
        | none, none => raw.length
      let item := jsTrim ⟨(raw.drop idx).take (end2 - idx)⟩
      let acc' := if item = "" then acc else acc ++ [item]
      sponsorLoopF fuel raw end2 acc'

/-- The match list collected by the extraction loop of normalizeSponsorLinks. -/
def sponsorMatches (raw : String) : List String :=
  sponsorLoopF (raw.data.length + 1) raw.data 0 []

/-- split(",") on character lists. -/
def splitOnComma : List Char → List (List Char)
  | [] => [[]]
  | c :: cs =>
    if c = ',' then [] :: splitOnComma cs
    else
      match splitOnComma cs with
      | [] => [[c]]
      | h :: t => (c :: h) :: t

/-- The iteration order of Array.from(new Set(l)): keep the first occurrence
of each element, in order, tracking the already-seen elements. -/
def jsSetInsertLoop : List String → List String → List String
  | [], _ => []
  | x :: xs, seen =>
    if x ∈ seen then jsSetInsertLoop xs seen else x :: jsSetInsertLoop xs (x :: seen)

/-- Array.from(new Set(l)). -/
def jsSetDedup (l : List String) : List String := jsSetInsertLoop l []

/-- normalizeSponsorLinks(raw): empty input gives the empty list; when the
marker extraction finds nothing, fall back to comma splitting with trim and
truthiness filtering; else deduplicate the matches through a Set. -/
def normalizeSponsorLinks (raw : String) : List String :=
  if raw = "" then []
  else
    let ms := sponsorMatches raw
    if ms = [] then
      ((splitOnComma raw.data).map (fun l => jsTrim ⟨l⟩)).filter (fun s => !(s == ""))
    else jsSetDedup ms

/-- A store where the owner is awaiting_request and no request exists. -/
def db0 : Db := Db.mk (fun u => if u = ownerId then some "awaiting_request" else none) (fun _ => none)

/-- Substring scan: pat occurs contiguously in the haystack. Used to state
containment and non-containment of page fragments at concrete inputs. -/
def hasSub (pat : List Char) : List Char → Bool
  | [] => pat.isEmpty
  | c :: cs => pat.isPrefixOf (c :: cs) || hasSub pat cs

/-- Appending strings appends their character data. -/
theorem strDataAppend (a b : String) : (a ++ b).data = a.data ++ b.data := by
  cases a; cases b; rfl

/-- Strings with the same character data are equal. -/
theorem strExt {a b : String} (h : a.data = b.data) : a = b := by
  cases a; cases b; exact congrArg String.mk h

/-- String append is associative. -/
theorem strAppendAssoc (a b c : String) : a ++ b ++ c = a ++ (b ++ c) :=
  strExt (by simp [strDataAppend])

/-- A string with a nonempty right part of an append is nonempty. -/
theorem strAppendNeEmptyRight (a b : String) (h : b ≠ "") : a ++ b ≠ "" := by
  intro he
  apply h
  apply strExt
  have hd := congrArg String.data he
  rw [strDataAppend] at hd
  have h2 := (List.append_eq_nil.mp hd).2
  simpa using h2

/-- Digit characters have code points between 48 and 57. -/
theorem digitChar_toNat {c : Char} (h : isDigitChar c = true) : 48 ≤ c.toNat ∧ c.toNat ≤ 57 := by
  simpa [isDigitChar] using h

/-- Lower-casing leaves digit characters unchanged. -/
theorem lowerChar_digit {c : Char} (h : isDigitChar c = true) : lowerChar c = c := by
  have hb := digitChar_toNat h
  unfold lowerChar
  rw [if_neg (by omega : ¬(65 ≤ c.toNat ∧ c.toNat ≤ 90))]

/-- A string of digits never matches the URL regex: its first character is a
digit, while the regex forces the first character to lower-case to h. -/
theorem digits_not_url (t : String) (h : isDigits t = true) : isUrlRe t = false := by
  cases ht : t.data with
  | nil =>
    rw [isDigits, ht] at h
    simp at h
  | cons c cs =>
    have hc : isDigitChar c = true := by
      rw [isDigits, ht] at h
      simp [List.all_cons] at h
      exact h.1
    have hb := digitChar_toNat hc
    have hl : lowerChar c = c := lowerChar_digit hc
    have h7 : ¬ ((List.map lowerChar (c :: cs)).take 7 = "http://".data) := by
      rw [List.map_cons]
      intro he
      have h1 : lowerChar c = 'h' := congrArg (fun l => l.headD 'x') he
      rw [hl] at h1
      have h2 : c.toNat = 104 := congrArg Char.toNat h1
      omega
    have h8 : ¬ ((List.map lowerChar (c :: cs)).take 8 = "https://".data) := by
      rw [List.map_cons]
      intro he
      have h1 : lowerChar c = 'h' := congrArg (fun l => l.headD 'x') he
      rw [hl] at h1
      have h2 : c.toNat = 104 := congrArg Char.toNat h1
      omega
    simp only [isUrlRe, ht]
    rw [if_neg h7, if_neg h8]

/-- Claim C2: the input classifier is total and deterministic. For every
string, either the digit rule accepts and the URL rule rejects (class stars
with the parsed value), or only the URL rule accepts (class nft), or both
reject (class neither); the two rules never both accept. -/
theorem classifier_total_and_disjoint (t : String) :
    (classify t = Classification.stars (parseDigits t) ∧ isDigits t = true ∧ isUrlRe t = false) ∨
    (classify t = Classification.nft ∧ isDigits t = false ∧ isUrlRe t = true) ∨
    (classify t = Classification.neither ∧ isDigits t = false ∧ isUrlRe t = false) := by
  by_cases hd : isDigits t = true
  · exact Or.inl ⟨by simp [classify, hd], hd, digits_not_url t hd⟩
  · have hd' : isDigits t = false := by simpa using hd
    by_cases hu : isUrlRe t = true
    · exact Or.inr (Or.inl ⟨by simp [classify, hd', hu], hd', hu⟩)
    · have hu' : isUrlRe t = false := by simpa using hu
      exact Or.inr (Or.inr ⟨by simp [classify, hd', hu'], hd', hu'⟩)

/-- String length is the length of the character data. -/
theorem strLength (s : String) : s.length = s.data.length := by
  cases s; rfl

/-- charAt within range yields one character, drawn from the string. -/
theorem jsCharAt_spec (s : String) (i : Nat) (hi : i < s.data.length) :
    (jsCharAt s i).data.length = 1 ∧ ∀ c ∈ (jsCharAt s i).data, c ∈ s.data := by
  unfold jsCharAt
  constructor
  · simp only [List.length_take, List.length_drop]
    omega
  · intro c hc
    simp only at hc
    exact List.mem_of_mem_drop (List.mem_of_mem_take hc)

/-- The token generator, for any length: with every random index in range,
the output has exactly that many characters, all from the alphabet. -/
theorem genToken_spec (len : Nat) (r : Nat → Nat) :
    (∀ i, i < len → r i < 62) →
    (generateRandomToken len r).data.length = len ∧
    ∀ c ∈ (generateRandomToken len r).data, c ∈ alphabet.data := by
  induction len with
  | zero =>
    intro _
    exact ⟨rfl, by intro c hc; simp [generateRandomToken] at hc⟩
  | succ n ih =>
    intro h
    obtain ⟨ih1, ih2⟩ := ih (fun i hi => h i (Nat.lt_succ_of_lt hi))
    have hstep : generateRandomToken (n + 1) r =
        generateRandomToken n r ++ jsCharAt alphabet (r n) := by
      unfold generateRandomToken
      rw [List.range_succ, List.foldl_append]
      rfl
    have hrange : r n < alphabet.data.length := by
      have := h n (Nat.lt_succ_self n)
      have hlen : alphabet.data.length = 62 := by decide
      omega
    obtain ⟨hc1, hc2⟩ := jsCharAt_spec alphabet (r n) hrange
    constructor
    · rw [hstep, strDataAppend, List.length_append, ih1, hc1]
    · intro c hc
      rw [hstep, strDataAppend, List.mem_append] at hc
      rcases hc with hc | hc
      · exact ih2 c hc
      · exact hc2 c hc

/-- Claim C4: the token generator as called by the flow (length 14, random
indexes below 62) returns a string of exactly 14 characters, each a character
of the 62-character alphanumeric alphabet. -/
theorem token_generator_contract (r : Nat → Nat) (h : ∀ i, i < 14 → r i < 62) :
    (generateRandomToken 14 r).length = 14 ∧
    ∀ c ∈ (generateRandomToken 14 r).data, c ∈ alphabet.data := by
  obtain ⟨h1, h2⟩ := genToken_spec 14 r h
  exact ⟨by rw [strLength, h1], h2⟩

/-- Witness for C4 at the constant-zero random source. -/
theorem token_generator_contract_witness :
    (∀ i, i < 14 → (fun _ => (0 : Nat)) i < 62) ∧
    (generateRandomToken 14 (fun _ => 0)).length = 14 :=
  ⟨fun _ _ => Nat.succ_pos 61,
   (token_generator_contract (fun _ => 0) (fun _ _ => Nat.succ_pos 61)).1⟩

/-- Rounding to double is the identity on the exactly representable range
below 2^53. -/
theorem roundToDouble_small {n : Nat} (h : n < 2 ^ 53) : roundToDouble n = n := by
  unfold roundToDouble
  rw [if_pos h]

/-- A digit string whose exact value is a representable integer parses to
exactly that value. -/
theorem jsParseIntDigits_exact {s : String} (h : parseDigits s < 2 ^ 53) :
    jsParseIntDigits s = parseDigits s := by
  unfold jsParseIntDigits
  exact roundToDouble_small h

/-- Zero rounds to zero. -/
theorem roundToDouble_zero : roundToDouble 0 = 0 := roundToDouble_small (by decide)

/-- Unfolding of the text handler on owner input in state awaiting_request
that is all digits with a positive, exactly representable value. -/
theorem handleText_stars (baseUrl : String) (db : Db) (msg : String) (r : Nat → Nat)
    (h0 : db.userStates ownerId = some "awaiting_request")
    (h1 : isDigits (jsTrim msg) = true)
    (h2 : 0 < parseDigits (jsTrim msg))
    (h3 : parseDigits (jsTrim msg) < 2 ^ 53) :
    handleText baseUrl db ownerId msg r =
      (clearUserState (saveRequest db (generateRandomToken 14 r) ownerId "stars"
          (toString (parseDigits (jsTrim msg)))
          (baseUrl ++ "/c/" ++ generateRandomToken 14 r)) ownerId,
        ["Готово! Ваша уникальная ссылка: " ++ (baseUrl ++ "/c/" ++ generateRandomToken 14 r)]) := by
  have hv : jsParseIntDigits (jsTrim msg) = parseDigits (jsTrim msg) := jsParseIntDigits_exact h3
  have hz : ¬ (parseDigits (jsTrim msg) ≤ 0) := by omega
  simp [handleText, getUserState, h0, h1, hv, hz]

/-- Unfolding of the text handler on owner input in state awaiting_request
that is not digits but matches the URL rule. -/
theorem handleText_nft (baseUrl : String) (db : Db) (msg : String) (r : Nat → Nat)
    (h0 : db.userStates ownerId = some "awaiting_request")
    (h1 : isDigits (jsTrim msg) = false)
    (hu : isUrlRe (jsTrim msg) = true) :
    handleText baseUrl db ownerId msg r =
      (clearUserState (saveRequest db (generateRandomToken 14 r) ownerId "nft"
          (jsTrim msg) (baseUrl ++ "/c/" ++ generateRandomToken 14 r)) ownerId,
        ["Готово! Ваша уникальная ссылка: " ++ (baseUrl ++ "/c/" ++ generateRandomToken 14 r)]) := by
  simp [handleText, getUserState, h0, h1, hu]

/-- After saving a request and clearing the user state, the request row is
present under its token. -/
theorem requests_after_flow (db : Db) (tok : String) (uid uid' : Int) (ty v lnk : String) :
    (clearUserState (saveRequest db tok uid ty v lnk) uid').requests tok =
      some (RequestRow.mk uid ty v lnk) := by
  simp [clearUserState, saveRequest]

/-- Claim C3 counterexample: at the digit input 9007199254740993 (2^53 + 1)
parseInt returns the double 9007199254740992 (ties to even), so the stored
request value is not the decimal form of the exact integer value the input
denotes. -/
theorem stars_exact_value_counterexample :
    isDigits (jsTrim "9007199254740993") = true ∧
    0 < parseDigits (jsTrim "9007199254740993") ∧
    (handleText "https://borkstudio" db0 ownerId "9007199254740993" (fun _ => 0)).1.requests
        "AAAAAAAAAAAAAA" =
      some (RequestRow.mk ownerId "stars" "9007199254740992"
        "https://borkstudio/c/AAAAAAAAAAAAAA") ∧
    toString (parseDigits (jsTrim "9007199254740993")) ≠ "9007199254740992" :=
  ⟨by decide, by decide, by decide, by decide⟩

/-- Claim C3 (amended): a digit-only input whose exact value is positive and
below 2^53 (so the parsed double is exact) is stored as a stars request
holding exactly that integer value; the input 0 is rejected with a re-prompt
and creates nothing; the input 007 is stored with value 7. -/
theorem stars_classification_and_value (baseUrl : String) (db : Db) (msg : String) (r : Nat → Nat)
    (h0 : db.userStates ownerId = some "awaiting_request")
    (h1 : isDigits (jsTrim msg) = true)
    (h2 : 0 < parseDigits (jsTrim msg))
    (h3 : parseDigits (jsTrim msg) < 2 ^ 53) :
    (handleText baseUrl db ownerId msg r).1.requests (generateRandomToken 14 r) =
      some (RequestRow.mk ownerId "stars" (toString (parseDigits (jsTrim msg)))
        (baseUrl ++ "/c/" ++ generateRandomToken 14 r)) ∧
    handleText "https://borkstudio" db0 ownerId "0" (fun _ => 0) =
      (db0, ["Количество звёзд должно быть больше 0. Попробуйте снова."]) ∧
    (handleText "https://borkstudio" db0 ownerId "007" (fun _ => 0)).1.requests "AAAAAAAAAAAAAA" =
      some (RequestRow.mk ownerId "stars" "7" "https://borkstudio/c/AAAAAAAAAAAAAA") := by
  refine ⟨?_, ?_, ?_⟩
  · rw [handleText_stars baseUrl db msg r h0 h1 h2 h3]
    exact requests_after_flow db _ ownerId ownerId "stars" _ _
  · rfl
  · rfl

/-- Witness for C3 at input 42. -/
theorem stars_classification_and_value_witness :
    db0.userStates ownerId = some "awaiting_request" ∧
    isDigits (jsTrim "42") = true ∧ 0 < parseDigits (jsTrim "42") ∧
    parseDigits (jsTrim "42") < 2 ^ 53 ∧
    (handleText "https://borkstudio" db0 ownerId "42" (fun _ => 0)).1.requests
        (generateRandomToken 14 (fun _ => 0)) =
      some (RequestRow.mk ownerId "stars" (toString (parseDigits (jsTrim "42")))
        ("https://borkstudio" ++ "/c/" ++ generateRandomToken 14 (fun _ => 0))) :=
  ⟨rfl, by decide, by decide, by decide,
   (stars_classification_and_value "https://borkstudio" db0 "42" (fun _ => 0) rfl
      (by decide) (by decide) (by decide)).1⟩

/-- Claim C5: events from any non-owner identity leave both stores exactly
as they were: the get_link action and the text handler return the store
unchanged, so no state record and no request record is touched. -/
theorem non_owner_no_effect (baseUrl : String) (db : Db) (uid : Int) (msg : String)
    (r : Nat → Nat) (h : uid ≠ ownerId) :
    (handleGetLink db uid).1 = db ∧ (handleText baseUrl db uid msg r).1 = db := by
  constructor
  · simp [handleGetLink, h]
  · simp [handleText, h]

/-- Witness for C5 at identity 0. -/
theorem non_owner_no_effect_witness :
    (0 : Int) ≠ ownerId ∧ (handleGetLink db0 0).1 = db0 :=
  ⟨by decide,
   (non_owner_no_effect "https://borkstudio" db0 0 "42" (fun _ => 0) (by decide)).1⟩

/-- Claim C6: invalid owner text while awaiting_request (neither rule
matches, or digits with value not above zero) re-prompts with the matching
corrective message, keeps the state awaiting_request and creates no request:
the store is returned unchanged. -/
theorem invalid_input_keeps_state (baseUrl : String) (db : Db) (msg : String) (r : Nat → Nat)
    (h0 : db.userStates ownerId = some "awaiting_request")
    (hbad : (isDigits (jsTrim msg) = false ∧ isUrlRe (jsTrim msg) = false) ∨
      (isDigits (jsTrim msg) = true ∧ parseDigits (jsTrim msg) = 0)) :
    (handleText baseUrl db ownerId msg r).1 = db ∧
    (handleText baseUrl db ownerId msg r).1.userStates ownerId = some "awaiting_request" ∧
    (handleText baseUrl db ownerId msg r).2 =
      [if isDigits (jsTrim msg) then
         "Количество звёзд должно быть больше 0. Попробуйте снова."
       else
         "Пожалуйста, отправьте положительное число (звёзды) или корректную ссылку (NFT)."] := by
  have hres : handleText baseUrl db ownerId msg r =
      (db, [if isDigits (jsTrim msg) then
         "Количество звёзд должно быть больше 0. Попробуйте снова."
       else
         "Пожалуйста, отправьте положительное число (звёзды) или корректную ссылку (NFT)."]) := by
    rcases hbad with ⟨hn, hu⟩ | ⟨hn, hz⟩
    · simp [handleText, getUserState, h0, hn, hu]
    · simp [handleText, getUserState, h0, hn, hz, jsParseIntDigits, roundToDouble_zero]
  rw [hres]
  exact ⟨rfl, h0, rfl⟩

/-- Witness for C6 at the input hello world. -/
theorem invalid_input_keeps_state_witness :
    db0.userStates ownerId = some "awaiting_request" ∧
    isDigits (jsTrim "hello world") = false ∧ isUrlRe (jsTrim "hello world") = false ∧
    (handleText "https://borkstudio" db0 ownerId "hello world" (fun _ => 0)).1 = db0 :=
  ⟨rfl, by decide, by decide,
   (invalid_input_keeps_state "https://borkstudio" db0 "hello world" (fun _ => 0) rfl
      (Or.inl ⟨by decide, by decide⟩)).1⟩

/-- Appending the empty string on the right changes nothing. -/
theorem strAppendEmpty (a : String) : a ++ "" = a :=
  strExt (by rw [strDataAppend]; exact List.append_nil a.data)

/-- A string accepted by the URL rule is nonempty. -/
theorem isUrl_ne_empty {t : String} (h : isUrlRe t = true) : t ≠ "" := by
  intro he
  subst he
  exact absurd h (by decide)

/-- The page built with a nonempty display value contains that display value
verbatim: the value div is rendered around it. -/
theorem buildCopyHtml_contains_display (u : String) (row : Option RequestRow) (nf : Bool)
    (h : rowDisplayValue row ≠ "") :
    ∃ pre post, buildCopyHtml u row nf = pre ++ rowDisplayValue row ++ post := by
  refine ⟨htmlA ++ (if nf then "Ссылка не найдена" else "Скопировать ссылку") ++ htmlB ++
      (if nf then "Ссылка не найдена" else "Скопировать ссылку") ++ htmlC ++
      (if nf then "Эта ссылка не найдена или истекла."
       else "Нажмите кнопку, чтобы скопировать: " ++ u) ++ htmlD ++ "<div class=\"value\">",
    "</div>" ++ htmlE ++ jsonStringify u ++ htmlF, ?_⟩
  simp only [buildCopyHtml]
  rw [if_pos h]
  simp only [strAppendAssoc]

/-- The found-variant page contains the full URL verbatim, inside the
description line. -/
theorem buildCopyHtml_contains_url (u : String) (row : Option RequestRow) :
    ∃ pre post, buildCopyHtml u row false = pre ++ u ++ post := by
  refine ⟨htmlA ++ "Скопировать ссылку" ++ htmlB ++ "Скопировать ссылку" ++ htmlC ++
      "Нажмите кнопку, чтобы скопировать: ",
    htmlD ++
      (if rowDisplayValue row ≠ "" then
        "<div class=\"value\">" ++ rowDisplayValue row ++ "</div>" else "") ++
      htmlE ++ jsonStringify u ++ htmlF, ?_⟩
  show htmlA ++ "Скопировать ссылку" ++ htmlB ++ "Скопировать ссылку" ++ htmlC ++
      ("Нажмите кнопку, чтобы скопировать: " ++ u) ++ htmlD ++
      (if rowDisplayValue row ≠ "" then
        "<div class=\"value\">" ++ rowDisplayValue row ++ "</div>" else "") ++
      htmlE ++ jsonStringify u ++ htmlF = _
  simp only [strAppendAssoc]

/-- The substring scan is sound and complete for contiguous occurrence. -/
theorem hasSub_iff (pat : List Char) :
    ∀ l : List Char, hasSub pat l = true ↔ ∃ s t, l = s ++ pat ++ t := by
  intro l
  induction l with
  | nil =>
    constructor
    · intro h
      have hp : pat = [] := by simpa [hasSub, List.isEmpty_iff] using h
      exact ⟨[], [], by simp [hp]⟩
    · rintro ⟨s, t, he⟩
      have he' : s ++ pat ++ t = [] := he.symm
      simp only [List.append_eq_nil] at he'
      simp [hasSub, he'.1.2]
  | cons c cs ih =>
    constructor
    · intro h
      rcases (by simpa [hasSub] using h : pat <+: c :: cs ∨ hasSub pat cs = true) with hp | hs
      · obtain ⟨t, ht⟩ := hp
        exact ⟨[], t, by simp [← ht]⟩
      · obtain ⟨s, t, hst⟩ := ih.mp hs
        exact ⟨c :: s, t, by simp [hst]⟩
    · rintro ⟨s, t, he⟩
      cases s with
      | nil =>
        simp only [List.nil_append] at he
        simp only [hasSub, Bool.or_eq_true_iff]
        exact Or.inl (List.isPrefixOf_iff_prefix.mpr ⟨t, he.symm⟩)
      | cons a s' =>
        simp only [List.cons_append] at he
        simp only [hasSub, Bool.or_eq_true_iff]
        exact Or.inr (ih.mpr ⟨s', t, (List.cons.injEq _ _ _ _ ▸ he).2⟩)

/-- A string occurs between two others exactly when the substring scan over
the character data accepts, which evaluates at concrete inputs. -/
theorem strContains_iff_data (s mid : String) :
    (∃ pre post, s = pre ++ mid ++ post) ↔ hasSub mid.data s.data = true := by
  rw [hasSub_iff]
  constructor
  · rintro ⟨pre, post, rfl⟩
    exact ⟨pre.data, post.data, by rw [strDataAppend, strDataAppend]⟩
  · rintro ⟨s₁, t, h⟩
    refine ⟨⟨s₁⟩, ⟨t⟩, ?_⟩
    apply strExt
    rw [strDataAppend, strDataAppend]
    exact h

set_option maxRecDepth 40000 in
/-- Claim C1 counterexample: completing the flow with the digit input
9007199254740993 and resolving the token yields a found page, but its body
shows the rounded stored value 9007199254740992 and nowhere contains the
display form of the exact input value. -/
theorem roundtrip_exact_display_counterexample :
    isDigits (jsTrim "9007199254740993") = true ∧
    0 < parseDigits (jsTrim "9007199254740993") ∧
    (¬ ∃ pre post,
      (handleCopyRoute "https://borkstudio"
          (some (handleText "https://borkstudio" db0 ownerId "9007199254740993"
            (fun _ => 0)).1) (generateRandomToken 14 (fun _ => 0))).2 =
        pre ++ (toString (parseDigits (jsTrim "9007199254740993")) ++ " звёзд") ++ post) ∧
    ∃ pre post,
      (handleCopyRoute "https://borkstudio"
          (some (handleText "https://borkstudio" db0 ownerId "9007199254740993"
            (fun _ => 0)).1) (generateRandomToken 14 (fun _ => 0))).2 =
        pre ++ ("9007199254740992" ++ " звёзд") ++ post := by
  refine ⟨by decide, by decide, ?_, ?_⟩
  · rw [strContains_iff_data]
    decide
  · rw [strContains_iff_data]
    decide

/-- Claim C1 (amended): after the owner completes the flow with a valid input
(digit string whose exact value is positive and below 2^53, or URL string not
made of digits), resolving the generated token through the route yields
status 200 and a body containing the display form of the stored value (the
number with the unit suffix for stars, the raw trimmed URL for nft). -/
theorem roundtrip_found_page (baseUrl : String) (db : Db) (msg : String) (r : Nat → Nat)
    (h0 : db.userStates ownerId = some "awaiting_request")
    (hvalid : (isDigits (jsTrim msg) = true ∧ 0 < parseDigits (jsTrim msg) ∧
        parseDigits (jsTrim msg) < 2 ^ 53) ∨
      (isDigits (jsTrim msg) = false ∧ isUrlRe (jsTrim msg) = true)) :
    (handleCopyRoute baseUrl (some (handleText baseUrl db ownerId msg r).1)
        (generateRandomToken 14 r)).1 = 200 ∧
    ∃ pre post,
      (handleCopyRoute baseUrl (some (handleText baseUrl db ownerId msg r).1)
          (generateRandomToken 14 r)).2 =
        pre ++ (if isDigits (jsTrim msg) then toString (parseDigits (jsTrim msg)) ++ " звёзд"
                else jsTrim msg) ++ post := by
  rcases hvalid with ⟨h1, h2, h3⟩ | ⟨h1, hu⟩
  · rw [handleText_stars baseUrl db msg r h0 h1 h2 h3]
    have hreq := requests_after_flow db (generateRandomToken 14 r) ownerId ownerId "stars"
      (toString (parseDigits (jsTrim msg))) (baseUrl ++ "/c/" ++ generateRandomToken 14 r)
    have hdv : rowDisplayValue (some (RequestRow.mk ownerId "stars"
        (toString (parseDigits (jsTrim msg)))
        (baseUrl ++ "/c/" ++ generateRandomToken 14 r))) =
        toString (parseDigits (jsTrim msg)) ++ " звёзд" := by
      simp [rowDisplayValue]
    have hne : rowDisplayValue (some (RequestRow.mk ownerId "stars"
        (toString (parseDigits (jsTrim msg)))
        (baseUrl ++ "/c/" ++ generateRandomToken 14 r))) ≠ "" := by
      rw [hdv]
      exact strAppendNeEmptyRight _ _ (by decide)
    obtain ⟨pre, post, hpp⟩ := buildCopyHtml_contains_display
      (baseUrl ++ "/c/" ++ generateRandomToken 14 r)
      (some (RequestRow.mk ownerId "stars" (toString (parseDigits (jsTrim msg)))
        (baseUrl ++ "/c/" ++ generateRandomToken 14 r))) false hne
    constructor
    · simp only [handleCopyRoute, hreq]
    · refine ⟨pre, post, ?_⟩
      simp only [handleCopyRoute, hreq]
      rw [hpp, hdv]
      simp [h1]
  · rw [handleText_nft baseUrl db msg r h0 h1 hu]
    have hreq := requests_after_flow db (generateRandomToken 14 r) ownerId ownerId "nft"
      (jsTrim msg) (baseUrl ++ "/c/" ++ generateRandomToken 14 r)
    have hdv : rowDisplayValue (some (RequestRow.mk ownerId "nft" (jsTrim msg)
        (baseUrl ++ "/c/" ++ generateRandomToken 14 r))) = jsTrim msg := by
      simp [rowDisplayValue]
    have hne : rowDisplayValue (some (RequestRow.mk ownerId "nft" (jsTrim msg)
        (baseUrl ++ "/c/" ++ generateRandomToken 14 r))) ≠ "" := by
      rw [hdv]
      exact isUrl_ne_empty hu
    obtain ⟨pre, post, hpp⟩ := buildCopyHtml_contains_display
      (baseUrl ++ "/c/" ++ generateRandomToken 14 r)
      (some (RequestRow.mk ownerId "nft" (jsTrim msg)
        (baseUrl ++ "/c/" ++ generateRandomToken 14 r))) false hne
    constructor
    · simp only [handleCopyRoute, hreq]
    · refine ⟨pre, post, ?_⟩
      simp only [handleCopyRoute, hreq]
      rw [hpp, hdv]
      simp [h1]

/-- Witness for C1 at input 42. -/
theorem roundtrip_found_page_witness :
    db0.userStates ownerId = some "awaiting_request" ∧
    isDigits (jsTrim "42") = true ∧ 0 < parseDigits (jsTrim "42") ∧
    parseDigits (jsTrim "42") < 2 ^ 53 ∧
    (handleCopyRoute "https://borkstudio"
        (some (handleText "https://borkstudio" db0 ownerId "42" (fun _ => 0)).1)
        (generateRandomToken 14 (fun _ => 0))).1 = 200 :=
  ⟨rfl, by decide, by decide, by decide,
   (roundtrip_found_page "https://borkstudio" db0 "42" (fun _ => 0) rfl
      (Or.inl ⟨by decide, by decide, by decide⟩)).1⟩

/-- Claim C7: a token with no stored request resolves to status 404 with the
not-found variant of the page (whose title text marks it as not found); the
status is not the 500 reserved for lookup failures. -/
theorem unknown_token_not_found (baseUrl : String) (db : Db) (token : String)
    (h : db.requests token = none) :
    handleCopyRoute baseUrl (some db) token =
      (404, buildCopyHtml (baseUrl ++ "/c/" ++ token) none true) ∧
    (handleCopyRoute baseUrl (some db) token).1 ≠ 500 ∧
    ∃ pre post, (handleCopyRoute baseUrl (some db) token).2 =
      pre ++ "Ссылка не найдена" ++ post := by
  have hroute : handleCopyRoute baseUrl (some db) token =
      (404, buildCopyHtml (baseUrl ++ "/c/" ++ token) none true) := by
    simp only [handleCopyRoute, h]
  refine ⟨hroute, by rw [hroute]; intro hc; exact absurd hc (by decide : ¬ (404 = 500)), ?_⟩
  rw [hroute]
  refine ⟨htmlA, htmlB ++ "Ссылка не найдена" ++ htmlC ++
    "Эта ссылка не найдена или истекла." ++ htmlD ++ "" ++ htmlE ++
    jsonStringify (baseUrl ++ "/c/" ++ token) ++ htmlF, ?_⟩
  show htmlA ++ "Ссылка не найдена" ++ htmlB ++ "Ссылка не найдена" ++ htmlC ++
      "Эта ссылка не найдена или истекла." ++ htmlD ++ "" ++ htmlE ++
      jsonStringify (baseUrl ++ "/c/" ++ token) ++ htmlF = _
  simp only [strAppendAssoc]

/-- Witness for C7 at an unknown token. -/
theorem unknown_token_not_found_witness :
    db0.requests "zzz" = none ∧
    (handleCopyRoute "https://borkstudio" (some db0) "zzz").1 = 404 :=
  ⟨rfl, congrArg Prod.fst (unknown_token_not_found "https://borkstudio" db0 "zzz" rfl).1⟩

/-- Claim C8: with no persistence configured, the route answers any token
with status 200, builds the page from the base URL, the /c/ segment and the
token without any lookup, shows that full URL in the body, and renders no
stored value (the display value of the absent row is empty). -/
theorem degraded_mode_route (baseUrl token : String) :
    handleCopyRoute baseUrl none token =
      (200, buildCopyHtml (baseUrl ++ "/c/" ++ token) none false) ∧
    rowDisplayValue none = "" ∧
    ∃ pre post, (handleCopyRoute baseUrl none token).2 =
      pre ++ (baseUrl ++ "/c/" ++ token) ++ post := by
  refine ⟨rfl, rfl, ?_⟩
  refine ⟨htmlA ++ "Скопировать ссылку" ++ htmlB ++ "Скопировать ссылку" ++ htmlC ++
      "Нажмите кнопку, чтобы скопировать: ",
    htmlD ++ "" ++ htmlE ++ jsonStringify (baseUrl ++ "/c/" ++ token) ++ htmlF, ?_⟩
  show htmlA ++ "Скопировать ссылку" ++ htmlB ++ "Скопировать ссылку" ++ htmlC ++
      ("Нажмите кнопку, чтобы скопировать: " ++ (baseUrl ++ "/c/" ++ token)) ++ htmlD ++ "" ++
      htmlE ++ jsonStringify (baseUrl ++ "/c/" ++ token) ++ htmlF = _
  simp only [strAppendAssoc]

/-- Claim C10: the page builder embeds the full URL and the stored request
value verbatim, with no HTML escaping, and the route body for a stored token
therefore contains the raw token of the URL path verbatim. -/
theorem html_embeds_verbatim (u : String) (row : RequestRow) :
    (∃ a b, buildCopyHtml u (some row) false = a ++ u ++ b) ∧
    (∃ a b, buildCopyHtml u (some row) false = a ++ row.request_value ++ b) ∧
    ∀ (baseUrl token : String) (db : Db), db.requests token = some row →
      ∃ a b, (handleCopyRoute baseUrl (some db) token).2 = a ++ token ++ b := by
  refine ⟨buildCopyHtml_contains_url u (some row), ?_, ?_⟩
  · by_cases ht : row.request_type = "stars"
    · have hdv : rowDisplayValue (some row) = row.request_value ++ " звёзд" := by
        simp [rowDisplayValue, ht]
      have hne : rowDisplayValue (some row) ≠ "" := by
        rw [hdv]
        exact strAppendNeEmptyRight _ _ (by decide)
      obtain ⟨pre, post, hpp⟩ := buildCopyHtml_contains_display u (some row) false hne
      refine ⟨pre, " звёзд" ++ post, ?_⟩
      rw [hpp, hdv]
      simp only [strAppendAssoc]
    · by_cases hv : row.request_value = ""
      · refine ⟨buildCopyHtml u (some row) false, "", ?_⟩
        rw [hv, strAppendEmpty, strAppendEmpty]
      · have hdv : rowDisplayValue (some row) = row.request_value := by
          simp [rowDisplayValue, ht]
        have hne : rowDisplayValue (some row) ≠ "" := by
          rw [hdv]; exact hv
        obtain ⟨pre, post, hpp⟩ := buildCopyHtml_contains_display u (some row) false hne
        refine ⟨pre, post, ?_⟩
        rw [hpp, hdv]
  · intro baseUrl token db hdb
    obtain ⟨pre, post, hpp⟩ := buildCopyHtml_contains_url (baseUrl ++ "/c/" ++ token) (some row)
    refine ⟨pre ++ (baseUrl ++ "/c/"), post, ?_⟩
    simp only [handleCopyRoute, hdb]
    rw [hpp]
    simp only [strAppendAssoc]

/-- Witness for C10: a stored row with markup in the value, resolved by the
route. -/
theorem html_embeds_verbatim_witness :
    (saveRequest db0 "T" ownerId "nft" "<img>" "L").requests "T" =
      some (RequestRow.mk ownerId "nft" "<img>" "L") ∧
    ∃ a b, (handleCopyRoute "https://borkstudio"
      (some (saveRequest db0 "T" ownerId "nft" "<img>" "L")) "T").2 = a ++ "T" ++ b :=
  ⟨rfl,
   (html_embeds_verbatim "u" (RequestRow.mk ownerId "nft" "<img>" "L")).2.2
     "https://borkstudio" "T" (saveRequest db0 "T" ownerId "nft" "<img>" "L") rfl⟩

/-- Membership in the Set-insertion loop: an element appears in the output
exactly when it appears in the remaining input and was not already seen. -/
theorem mem_jsSetInsertLoop (a : String) :
    ∀ (l seen : List String), a ∈ jsSetInsertLoop l seen ↔ a ∈ l ∧ a ∉ seen := by
  intro l
  induction l with
  | nil => intro seen; simp [jsSetInsertLoop]
  | cons x xs ih =>
    intro seen
    by_cases hx : x ∈ seen
    · simp only [jsSetInsertLoop]
      rw [if_pos hx, ih]
      constructor
      · rintro ⟨h1, h2⟩
        exact ⟨List.mem_cons_of_mem x h1, h2⟩
      · rintro ⟨h1, h2⟩
        rcases List.mem_cons.mp h1 with h1 | h1
        · subst h1; exact absurd hx h2
        · exact ⟨h1, h2⟩
    · simp only [jsSetInsertLoop]
      rw [if_neg hx]
      constructor
      · intro hm
        rcases List.mem_cons.mp hm with hm | hm
        · subst hm; exact ⟨List.mem_cons_self _ _, hx⟩
        · obtain ⟨h1, h2⟩ := (ih (x :: seen)).mp hm
          exact ⟨List.mem_cons_of_mem x h1, fun hs => h2 (List.mem_cons_of_mem x hs)⟩
      · rintro ⟨h1, h2⟩
        by_cases hax : a = x
        · subst hax; exact List.mem_cons_self _ _
        · rcases List.mem_cons.mp h1 with h1 | h1
          · exact absurd h1 hax
          · refine List.mem_cons_of_mem x ((ih (x :: seen)).mpr ⟨h1, ?_⟩)
            intro hm
            rcases List.mem_cons.mp hm with hm | hm
            · exact hax hm
            · exact h2 hm

/-- The Set-insertion loop never emits an element twice. -/
theorem nodup_jsSetInsertLoop : ∀ (l seen : List String), (jsSetInsertLoop l seen).Nodup := by
  intro l
  induction l with
  | nil => intro seen; simp [jsSetInsertLoop]
  | cons x xs ih =>
    intro seen
    by_cases hx : x ∈ seen
    · simp only [jsSetInsertLoop]
      rw [if_pos hx]
      exact ih seen
    · simp only [jsSetInsertLoop]
      rw [if_neg hx]
      refine List.nodup_cons.mpr ⟨?_, ih (x :: seen)⟩
      intro hm
      exact ((mem_jsSetInsertLoop x xs (x :: seen)).mp hm).2 (List.mem_cons_self _ _)

/-- The Set-insertion loop output is a subsequence of the input: the kept
first occurrences stay in their input order. -/
theorem sublist_jsSetInsertLoop : ∀ (l seen : List String), (jsSetInsertLoop l seen).Sublist l := by
  intro l
  induction l with
  | nil => intro seen; simp [jsSetInsertLoop]
  | cons x xs ih =>
    intro seen
    by_cases hx : x ∈ seen
    · simp only [jsSetInsertLoop]
      rw [if_pos hx]
      exact (ih seen).cons x
    · simp only [jsSetInsertLoop]
      rw [if_neg hx]
      exact (ih (x :: seen)).cons₂ x

/-- Claim C9 counterexample: on the comma-split fallback path the parser
does not deduplicate: the input a,a yields the link a twice. -/
theorem sponsor_links_dup_counterexample :
    normalizeSponsorLinks "a,a" = ["a", "a"] ∧ ¬ (normalizeSponsorLinks "a,a").Nodup := by
  exact ⟨by decide, by decide⟩

/-- Claim C9 (amended): whenever the marker extraction finds at least one
match, the parser output is the Set deduplication of the match list: it has
no duplicates, is a subsequence of the matches (so it preserves the order of
first appearance), and contains every match. -/
theorem sponsor_links_dedup_on_extraction (raw : String) (h : sponsorMatches raw ≠ []) :
    normalizeSponsorLinks raw = jsSetDedup (sponsorMatches raw) ∧
    (normalizeSponsorLinks raw).Nodup ∧
    (normalizeSponsorLinks raw).Sublist (sponsorMatches raw) ∧
    ∀ x ∈ sponsorMatches raw, x ∈ normalizeSponsorLinks raw := by
  have hraw : raw ≠ "" := by
    intro he
    subst he
    exact h rfl
  have hnorm : normalizeSponsorLinks raw = jsSetDedup (sponsorMatches raw) := by
    simp only [normalizeSponsorLinks]
    rw [if_neg hraw, if_neg h]
  refine ⟨hnorm, ?_, ?_, ?_⟩
  · rw [hnorm]
    exact nodup_jsSetInsertLoop _ []
  · rw [hnorm]
    exact sublist_jsSetInsertLoop _ []
  · intro x hx
    rw [hnorm]
    exact (mem_jsSetInsertLoop x _ []).mpr ⟨hx, by simp⟩

/-- Witness for the amended C9 on an input with a repeated link. -/
theorem sponsor_links_dedup_witness :
    sponsorMatches "https://t.me/x,https://t.me/y,https://t.me/x" ≠ [] ∧
    (normalizeSponsorLinks "https://t.me/x,https://t.me/y,https://t.me/x").Nodup :=
  ⟨by decide,
   (sponsor_links_dedup_on_extraction "https://t.me/x,https://t.me/y,https://t.me/x"
      (by decide)).2.1⟩
